import Mathlib

/-!
Verification of `fetch_and_write_excel.py` (nifty50-delivery).

The script is a linear batch pipeline: discover a CSV link on an NSE listing
page (or take an override URL from the `REPORT_CSV_URL` environment value),
download the CSV, normalize it (`parse_deliverable_csv`), filter to the
NIFTY-50 reference symbol set (`filter_nifty50`) and write a spreadsheet.

The embedding below is a shallow model of the script, function by function.
Network transport, the HTML parser and the spreadsheet writer are modelled at
their interfaces: a listing page is the list of anchor `href` values, an HTTP
response is a status code plus body text, and "writing the file" is recorded
in a `RunOutcome` value.  CSV parsing (`pd.read_csv`) is modelled at the table
level: a `CsvTable` is a header list plus rows of string cells, which is the
view `parse_deliverable_csv` consumes.

Note on line 98 of the source: `df[sym_col].astype(str).str_strip()` is not a
pandas attribute (`.str.strip()` was intended), so once the three mandatory
columns resolve, `parse_deliverable_csv` raises `AttributeError` before
building any output row.  The model reproduces this faithfully; the per-cell
numeric coercion (line 99-100) and the percentage computation (lines 101-102)
are embedded separately, exactly as those lines write them, so that claims
citing those lines can be settled.
-/

/-- Occurrence of `pat` as a contiguous sublist of `hay`. -/
def subOccurs (pat : List Char) : List Char → Bool
  | [] => pat.isEmpty
  | c :: t => pat.isPrefixOf (c :: t) || subOccurs pat t

/-- Python `pat in s` substring test. -/
def containsSub (s pat : String) : Bool :=
  subOccurs pat.data s.data

/-- Python `str.lower()` (ASCII suffices for the header and URL data here). -/
def pyLower (s : String) : String :=
  String.mk (s.data.map Char.toLower)

/-- Python `str.upper()`. -/
def pyUpper (s : String) : String :=
  String.mk (s.data.map Char.toUpper)

/-- Python `str.startswith(pre)`. -/
def pyStartsWith (s pre : String) : Bool :=
  pre.data.isPrefixOf s.data

/-- Python `str.strip()`: drop leading and trailing whitespace. -/
def pyStrip (s : String) : String :=
  String.mk (((s.data.dropWhile Char.isWhitespace).reverse.dropWhile Char.isWhitespace).reverse)

/-- Pandas `.str.replace(',', '')`: delete every comma (line 99-100). -/
def removeCommas (s : String) : String :=
  String.mk (s.data.filter (fun c => c != ','))

deriving instance DecidableEq for Except

/-- Fixed listing-page URL (`REPORT_PAGE_URL`, line 19). -/
def REPORT_PAGE_URL : String := "https://www.nseindia.com/report-detail/eq_security"

/-- The site root used for the warm-up request and for resolving relative
links (lines 50 and 64). -/
def NSE_ROOT : String := "https://www.nseindia.com"

/-- `requests.compat.urljoin("https://www.nseindia.com", href)` (line 64),
modelled for the reference forms that occur: protocol-relative (`//…`),
path-absolute (`/…`) and path-relative references against a base with an
empty path. -/
def urljoinRoot (href : String) : String :=
  if pyStartsWith href "//" then "https:" ++ href
  else if pyStartsWith href "/" then NSE_ROOT ++ href
  else NSE_ROOT ++ "/" ++ href

/-- Lines 60-64: absolute links pass through, relative links are joined
against the site root. -/
def absolutize (href : String) : String :=
  if pyStartsWith href "http" then href else urljoinRoot href

/-- Line 67: the keyword test `"deliver" in low or "security" in low` on the
lowercased absolutized link. -/
def keywordHit (link : String) : Bool :=
  containsSub (pyLower link) "deliver" || containsSub (pyLower link) "security"

/-- The `DiscoveryError` / `SchemaError` / `HttpError` / `EmptyResponseError`
taxonomy of the spec; in the source all are `RuntimeError`s raised at the
corresponding lines, and `attributeError` is the `AttributeError` raised by
the `str_strip` call on line 98. -/
inductive PipeError where
  | discoveryError : PipeError
  | schemaError (headers : List String) : PipeError
  | httpError (status : Nat) : PipeError
  | emptyResponseError : PipeError
  | attributeError (msg : String) : PipeError
deriving Repr, DecidableEq

/-- Lines 53-71 of `discover_csv_link`, after the listing page has been
fetched: collect hrefs containing `.csv` (case-insensitive), absolutize,
return the first keyword match, else the first candidate, else fail. -/
def discoverFromPage (hrefs : List String) : Except PipeError String :=
  let csvLinks := hrefs.filter (fun h => containsSub (pyLower h) ".csv")
  let full := csvLinks.map absolutize
  match full.find? keywordHit with
  | some link => .ok link
  | none =>
    match full with
    | f :: _ => .ok f
    | [] => .error .discoveryError

/-- `discover_csv_link` (lines 46-71).  `envUrl` is `os.getenv(REPORT_CSV_URL)`
(`none` when unset); a non-empty value is returned unchanged before any
request is issued.  The second component records the GET requests made: the
warm-up against the site root and the listing-page fetch. -/
def discover_csv_link (envUrl : Option String) (hrefs : List String) :
    Except PipeError String × List String :=
  match envUrl with
  | some s =>
    if s = "" then (discoverFromPage hrefs, [NSE_ROOT, REPORT_PAGE_URL])
    else (.ok s, [])
  | none => (discoverFromPage hrefs, [NSE_ROOT, REPORT_PAGE_URL])

/-- Selection policy as the spec words it (section 4.2): (a) the first
absolutized candidate whose lowercased text contains "deliver" or "security";
(b) otherwise the first candidate link found on the page; (c) `DiscoveryError`
when there are zero candidate links. -/
def discoverPolicySpec (hrefs : List String) : Except PipeError String :=
  let candidates := (hrefs.filter (fun h => containsSub (pyLower h) ".csv")).map absolutize
  match candidates.find? keywordHit with
  | some link => .ok link
  | none =>
    match candidates.head? with
    | some f => .ok f
    | none => .error .discoveryError

/-- `download_csv_text` (lines 73-80), over the response it observes: status
code and body text.  `not r.text or len(r.text) < 50` collapses to
`len < 50`. -/
def download_csv_text (status : Nat) (text : String) : Except PipeError String :=
  if status != 200 then .error (.httpError status)
  else if text.length < 50 then .error .emptyResponseError
  else .ok text

/-- C4: with no override set, `discover_csv_link` selects among the
absolutized `.csv` links exactly by the spec's ordered policy (first keyword
match, else first link, else `DiscoveryError`), and on the two reference pages
it picks `security-deliverable.csv` over `foo.csv`, and `foo.csv` when alone. -/
theorem discover_selection_policy :
    (∀ hrefs : List String,
      (discover_csv_link none hrefs).1 = discoverPolicySpec hrefs)
    ∧ (discover_csv_link none ["/a/foo.csv", "/b/security-deliverable.csv"]).1
        = .ok "https://www.nseindia.com/b/security-deliverable.csv"
    ∧ (discover_csv_link none ["/a/foo.csv"]).1
        = .ok "https://www.nseindia.com/a/foo.csv"
    ∧ (discover_csv_link none []).1 = .error .discoveryError := by
  refine ⟨?_, by decide, by decide, by decide⟩
  intro hrefs
  show discoverFromPage hrefs = discoverPolicySpec hrefs
  unfold discoverFromPage discoverPolicySpec
  cases h : ((hrefs.filter (fun h => containsSub (pyLower h) ".csv")).map absolutize).find? keywordHit with
  | some link => simp [h]
  | none =>
    simp only [h]
    cases (hrefs.filter (fun h => containsSub (pyLower h) ".csv")).map absolutize with
    | nil => rfl
    | cons f rest => rfl

/-- C7: `download_csv_text` returns the body iff the status is 200 and the
body has at least 50 characters; a non-200 status fails with `HttpError`
carrying the status, and a 200 response with a body shorter than 50
characters fails with `EmptyResponseError`. -/
theorem download_csv_text_contract (status : Nat) (text : String) :
    (download_csv_text status text = .ok text ↔ status = 200 ∧ 50 ≤ text.length)
    ∧ (status ≠ 200 → download_csv_text status text = .error (.httpError status))
    ∧ (status = 200 → text.length < 50 →
        download_csv_text status text = .error .emptyResponseError) := by
  unfold download_csv_text
  refine ⟨?_, ?_, ?_⟩
  · constructor
    · intro h
      by_cases hs : status = 200
      · subst hs
        by_cases hl : text.length < 50
        · simp [hl] at h
        · exact ⟨rfl, Nat.le_of_not_lt hl⟩
      · simp [hs] at h
    · rintro ⟨hs, hl⟩
      subst hs
      simp [Nat.not_lt.mpr hl]
  · intro hs
    simp [hs]
  · intro hs hl
    subst hs
    simp [hl]

/-- Closed instances of `download_csv_text_contract`: a 404 fails with
`HttpError 404`, and a 200 response with a 1-character body fails with
`EmptyResponseError`. -/
theorem download_csv_text_contract_witness :
    download_csv_text 404 "x" = .error (.httpError 404)
    ∧ download_csv_text 200 "x" = .error .emptyResponseError :=
  ⟨(download_csv_text_contract 404 "x").2.1 (by decide),
   (download_csv_text_contract 200 "x").2.2 rfl (by decide)⟩

/-- C8: a non-empty override value is returned unchanged, with no validation,
and no request (neither the warm-up nor the listing-page GET) is made. -/
theorem override_bypasses_discovery (s : String) (hrefs : List String)
    (hs : s ≠ "") :
    discover_csv_link (some s) hrefs = (.ok s, []) := by
  unfold discover_csv_link
  simp [hs]

/-- Closed instance of `override_bypasses_discovery` at a concrete override
URL and a non-trivial page. -/
theorem override_bypasses_discovery_witness :
    discover_csv_link (some "https://example.org/x.csv") ["/a/foo.csv"]
      = (.ok "https://example.org/x.csv", []) :=
  override_bypasses_discovery "https://example.org/x.csv" ["/a/foo.csv"] (by decide)

/-- Value of a digit string, most significant first. -/
def natOfDigits (l : List Char) : Nat :=
  l.foldl (fun a c => a * 10 + (c.toNat - 48)) 0

/-- All characters are decimal digits. -/
def allDigits (l : List Char) : Bool :=
  l.all Char.isDigit

/-- `pd.to_numeric(cell, errors='coerce')` followed by `astype(int)` on a
single cell, for the decimal literals the deliverable CSV carries: optional
sign, digits, optional fractional part; the `astype(int)` step truncates
toward zero, so only the integer part survives.  Anything else is `NaN`
(`none` here). -/
def parseNumTrunc (s : String) : Option Int :=
  let t := pyStrip s
  let (neg, u) :=
    if pyStartsWith t "-" then (true, String.mk (t.data.drop 1))
    else if pyStartsWith t "+" then (false, String.mk (t.data.drop 1))
    else (false, t)
  let sgn : Nat → Int := fun n => if neg then -(n : Int) else (n : Int)
  match u.data.span (fun c => c != '.') with
  | (w, []) =>
      if !w.isEmpty && allDigits w then some (sgn (natOfDigits w)) else none
  | (w, _ :: f) =>
      if (!w.isEmpty || !f.isEmpty) && allDigits w && allDigits f then
        some (sgn (natOfDigits w))
      else none

/-- Lines 99-100: strip thousands-separators, coerce with
`errors='coerce'`, `fillna(0)`, `astype(int)` — an unparsable cell becomes
0. -/
def coerceQty (s : String) : Int :=
  (parseNumTrunc (removeCommas s)).getD 0

/-- `.round(2)`: round to two decimal places. -/
def round2 (q : ℚ) : ℚ :=
  ((round (q * 100) : ℤ) : ℚ) / 100

/-- Lines 101-102: `(DeliveryQty / TradedQty.replace({0: pd.NA})) * 100`,
then `.fillna(0).round(2)`.  A zero denominator becomes `pd.NA`, which
propagates through the arithmetic and is replaced by 0 before rounding. -/
def deliveryPct (deliveryQty tradedQty : ℤ) : ℚ :=
  if tradedQty = 0 then 0
  else round2 ((deliveryQty : ℚ) / (tradedQty : ℚ) * 100)

/-- C2: a row whose traded-quantity cell coerces to 0 gets `deliveryPct`
exactly 0; the zero denominator is replaced by `pd.NA` before the division,
so the percentage computation is total — no `NaN` survives and no error is
raised by it. -/
theorem deliveryPct_zero_when_traded_zero (tradedCell : String) (dq : ℤ)
    (h : coerceQty tradedCell = 0) :
    deliveryPct dq (coerceQty tradedCell) = 0 := by
  rw [h]
  simp [deliveryPct]

/-- Closed instance of `deliveryPct_zero_when_traded_zero`: the unparsable
cell "N/A" coerces to 0 and the row's percentage is 0. -/
theorem deliveryPct_zero_when_traded_zero_witness :
    deliveryPct 37 (coerceQty "N/A") = 0 :=
  deliveryPct_zero_when_traded_zero "N/A" 37 (by decide)

/-- Counterexample to C3 as stated: nothing clamps the quantities, so a row
with delivery quantity 200 against traded quantity 100 (both coerced without
validation) yields `deliveryPct = 200`, outside `[0, 100]`. -/
theorem deliveryPct_range_counterexample :
    deliveryPct 200 100 = 200 ∧ ¬ deliveryPct 200 100 ≤ 100 := by
  have h : deliveryPct 200 100 = 200 := by
    unfold deliveryPct round2
    rw [if_neg (by norm_num : ¬ (100 : ℤ) = 0)]
    norm_num
  exact ⟨h, by rw [h]; norm_num⟩

/-- C3 amended: `deliveryPct` is always an integer multiple of 1/100 (two
decimal places), and it lies in `[0, 100]` whenever
`0 ≤ deliveryQty ≤ tradedQty`; outside that relation (which nothing in the
code enforces) it can leave the interval. -/
theorem deliveryPct_rounded_and_bounded (dq tq : ℤ) :
    (∃ k : ℤ, deliveryPct dq tq = (k : ℚ) / 100)
    ∧ (0 ≤ dq → dq ≤ tq → 0 ≤ deliveryPct dq tq ∧ deliveryPct dq tq ≤ 100) := by
  constructor
  · by_cases h : tq = 0
    · exact ⟨0, by simp [deliveryPct, h]⟩
    · exact ⟨round (((dq : ℚ) / (tq : ℚ) * 100) * 100), by simp [deliveryPct, h, round2]⟩
  · intro h0 hle
    by_cases h : tq = 0
    · constructor
      · simp [deliveryPct, h]
      · simp [deliveryPct, h]
    · have htq : 0 < tq := lt_of_le_of_ne (le_trans h0 hle) (Ne.symm h)
      have htq' : (0 : ℚ) < (tq : ℚ) := by exact_mod_cast htq
      have hdq' : (0 : ℚ) ≤ (dq : ℚ) := by exact_mod_cast h0
      have hle' : (dq : ℚ) ≤ (tq : ℚ) := by exact_mod_cast hle
      have hx0 : 0 ≤ (dq : ℚ) / (tq : ℚ) * 100 :=
        mul_nonneg (div_nonneg hdq' htq'.le) (by norm_num)
      have hx100 : (dq : ℚ) / (tq : ℚ) * 100 ≤ 100 := by
        have h1 : (dq : ℚ) / (tq : ℚ) ≤ 1 := (div_le_one htq').mpr hle'
        nlinarith
      have hr0 : (0 : ℤ) ≤ round ((dq : ℚ) / (tq : ℚ) * 100 * 100) := by
        have : round (0 : ℚ) ≤ round ((dq : ℚ) / (tq : ℚ) * 100 * 100) := by
          rw [round_eq, round_eq]
          exact Int.floor_le_floor (by nlinarith)
        simpa using this
      have hr1 : round ((dq : ℚ) / (tq : ℚ) * 100 * 100) ≤ 10000 := by
        have : round ((dq : ℚ) / (tq : ℚ) * 100 * 100) ≤ round ((10000 : ℤ) : ℚ) := by
          rw [round_eq, round_eq]
          exact Int.floor_le_floor (by push_cast; nlinarith)
        simpa using this
      have hr0' : (0 : ℚ) ≤ ((round ((dq : ℚ) / (tq : ℚ) * 100 * 100) : ℤ) : ℚ) := by
        exact_mod_cast hr0
      have hr1' : ((round ((dq : ℚ) / (tq : ℚ) * 100 * 100) : ℤ) : ℚ) ≤ 10000 := by
        exact_mod_cast hr1
      unfold deliveryPct round2
      rw [if_neg h]
      constructor
      · positivity
      · rw [div_le_iff₀ (by norm_num : (0 : ℚ) < 100)]
        linarith

/-- Closed instance of `deliveryPct_rounded_and_bounded` at
delivery 400 of 1000 traded (the spec's own end-to-end example row). -/
theorem deliveryPct_rounded_and_bounded_witness :
    0 ≤ deliveryPct 400 1000 ∧ deliveryPct 400 1000 ≤ 100 :=
  (deliveryPct_rounded_and_bounded 400 1000).2 (by decide) (by decide)

/-- One step of the dict comprehension `{c.lower(): c for c in df.columns}`
(line 84): a repeated lowercased key keeps its first position but takes the
later column as its value; a fresh key is appended. -/
def insertLower (acc : List (String × String)) (c : String) : List (String × String) :=
  if acc.any (fun p => p.1 = pyLower c) then
    acc.map (fun p => if p.1 = pyLower c then (pyLower c, c) else p)
  else acc ++ [(pyLower c, c)]

/-- Line 84: `cols = {c.lower(): c for c in df.columns}`, as the ordered
association list a Python dict is. -/
def colsMap (headers : List String) : List (String × String) :=
  headers.foldl insertLower []

/-- Line 89: `'symbol' in k and 'series' not in k`. -/
def matchSymRule (k : String) : Bool :=
  containsSub k "symbol" && !containsSub k "series"

/-- Line 91: `'traded' in k and ('qty' in k or 'quantity' in k)`. -/
def matchTradedRule (k : String) : Bool :=
  containsSub k "traded" && (containsSub k "qty" || containsSub k "quantity")

/-- Line 93: `'deliver' in k and ('qty' in k or 'quantity' in k)`. -/
def matchDeliverRule (k : String) : Bool :=
  containsSub k "deliver" && (containsSub k "qty" || containsSub k "quantity")

/-- The three column variables assigned by the scan loop of lines 85-94. -/
structure Resolved where
  sym : Option String
  traded : Option String
  deliver : Option String
deriving Repr, DecidableEq

/-- The body of the loop of lines 88-94: three independent reassignments. -/
def resolveStep (r : Resolved) (kv : String × String) : Resolved :=
  let r1 := if matchSymRule kv.1 then { r with sym := some kv.2 } else r
  let r2 := if matchTradedRule kv.1 then { r1 with traded := some kv.2 } else r1
  if matchDeliverRule kv.1 then { r2 with deliver := some kv.2 } else r2

/-- Lines 85-94: scan `cols.items()` in order, keeping the latest match for
each of the three rules. -/
def resolveCols (headers : List String) : Resolved :=
  (colsMap headers).foldl resolveStep ⟨none, none, none⟩

/-- The value of the last entry of `items` whose key satisfies `p`. -/
def lastMatchVal (p : String → Bool) (items : List (String × String)) : Option String :=
  ((items.filter (fun kv => p kv.1)).getLast?).map Prod.snd

theorem resolveStep_sym (r : Resolved) (kv : String × String) :
    (resolveStep r kv).sym = if matchSymRule kv.1 then some kv.2 else r.sym := by
  simp only [resolveStep]
  split_ifs <;> rfl

theorem resolveStep_traded (r : Resolved) (kv : String × String) :
    (resolveStep r kv).traded = if matchTradedRule kv.1 then some kv.2 else r.traded := by
  simp only [resolveStep]
  split_ifs <;> rfl

theorem resolveStep_deliver (r : Resolved) (kv : String × String) :
    (resolveStep r kv).deliver = if matchDeliverRule kv.1 then some kv.2 else r.deliver := by
  simp only [resolveStep]
  split_ifs <;> rfl

theorem foldl_resolveStep_sym (items : List (String × String)) (r : Resolved) :
    (items.foldl resolveStep r).sym =
      items.foldl (fun a kv => if matchSymRule kv.1 then some kv.2 else a) r.sym := by
  induction items generalizing r with
  | nil => rfl
  | cons kv t ih => rw [List.foldl_cons, List.foldl_cons, ih, resolveStep_sym]

theorem foldl_resolveStep_traded (items : List (String × String)) (r : Resolved) :
    (items.foldl resolveStep r).traded =
      items.foldl (fun a kv => if matchTradedRule kv.1 then some kv.2 else a) r.traded := by
  induction items generalizing r with
  | nil => rfl
  | cons kv t ih => rw [List.foldl_cons, List.foldl_cons, ih, resolveStep_traded]

theorem foldl_resolveStep_deliver (items : List (String × String)) (r : Resolved) :
    (items.foldl resolveStep r).deliver =
      items.foldl (fun a kv => if matchDeliverRule kv.1 then some kv.2 else a) r.deliver := by
  induction items generalizing r with
  | nil => rfl
  | cons kv t ih => rw [List.foldl_cons, List.foldl_cons, ih, resolveStep_deliver]

theorem getLast?_cons_ne_none {α : Type} (x : α) (xs : List α) :
    (x :: xs).getLast? ≠ none := by
  induction xs generalizing x with
  | nil => simp
  | cons y ys ih =>
    rw [List.getLast?_cons_cons]
    exact ih y

theorem foldl_lastMatch (p : String → Bool) (items : List (String × String))
    (a : Option String) :
    items.foldl (fun acc kv => if p kv.1 then some kv.2 else acc) a =
      ((items.filter (fun kv => p kv.1)).getLast?).elim a (fun kv => some kv.2) := by
  induction items generalizing a with
  | nil => rfl
  | cons kv t ih =>
    rw [List.foldl_cons, ih]
    by_cases h : p kv.1
    · rw [List.filter_cons_of_pos (by simpa using h)]
      cases hf : t.filter (fun kv => p kv.1) with
      | nil => simp [h]
      | cons x xs =>
        rw [List.getLast?_cons_cons]
        cases hgl : (x :: xs).getLast? with
        | none => exact absurd hgl (getLast?_cons_ne_none x xs)
        | some y => rfl
    · rw [List.filter_cons_of_neg (by simpa using h)]
      simp [h]

theorem resolveCols_traded_eq (headers : List String) :
    (resolveCols headers).traded = lastMatchVal matchTradedRule (colsMap headers) := by
  unfold resolveCols lastMatchVal
  rw [foldl_resolveStep_traded, foldl_lastMatch]
  cases (List.filter (fun kv => matchTradedRule kv.1) (colsMap headers)).getLast? <;> rfl

theorem resolveCols_sym_eq (headers : List String) :
    (resolveCols headers).sym = lastMatchVal matchSymRule (colsMap headers) := by
  unfold resolveCols lastMatchVal
  rw [foldl_resolveStep_sym, foldl_lastMatch]
  cases (List.filter (fun kv => matchSymRule kv.1) (colsMap headers)).getLast? <;> rfl

theorem resolveCols_deliver_eq (headers : List String) :
    (resolveCols headers).deliver = lastMatchVal matchDeliverRule (colsMap headers) := by
  unfold resolveCols lastMatchVal
  rw [foldl_resolveStep_deliver, foldl_lastMatch]
  cases (List.filter (fun kv => matchDeliverRule kv.1) (colsMap headers)).getLast? <;> rfl

theorem keys_insertLower (acc : List (String × String)) (c : String) :
    (insertLower acc c).map Prod.fst =
      if acc.any (fun p => p.1 = pyLower c) then acc.map Prod.fst
      else acc.map Prod.fst ++ [pyLower c] := by
  unfold insertLower
  split_ifs with h
  · rw [List.map_map]
    refine List.map_congr_left ?_
    intro p _
    by_cases hp : p.1 = pyLower c
    · simp [hp]
    · simp [hp]
  · simp

theorem nodup_keys_foldl (headers : List String) (acc : List (String × String))
    (hacc : (acc.map Prod.fst).Nodup) :
    ((headers.foldl insertLower acc).map Prod.fst).Nodup := by
  induction headers generalizing acc with
  | nil => exact hacc
  | cons c t ih =>
    rw [List.foldl_cons]
    refine ih (insertLower acc c) ?_
    rw [keys_insertLower]
    split_ifs with h
    · exact hacc
    · have hnotin : pyLower c ∉ acc.map Prod.fst := by
        intro hmem
        rcases List.mem_map.mp hmem with ⟨p, hp, hfst⟩
        have : acc.any (fun p => p.1 = pyLower c) = true :=
          List.any_eq_true.mpr ⟨p, hp, by simp [hfst]⟩
        exact h this
      simp [List.nodup_append, hacc, hnotin]

theorem colsMap_of_fresh (headers : List String) (acc : List (String × String))
    (hfresh : (acc.map Prod.fst ++ headers.map pyLower).Nodup) :
    headers.foldl insertLower acc = acc ++ headers.map (fun c => (pyLower c, c)) := by
  induction headers generalizing acc with
  | nil => simp
  | cons c t ih =>
    rw [List.foldl_cons]
    have hnotin : pyLower c ∉ acc.map Prod.fst := by
      intro hmem
      have : ¬ (acc.map Prod.fst ++ pyLower c :: t.map pyLower).Nodup := by
        intro hn
        rcases List.disjoint_of_nodup_append hn (a := pyLower c) hmem (by simp)
      simp only [List.map_cons] at hfresh
      exact this hfresh
    have hstep : insertLower acc c = acc ++ [(pyLower c, c)] := by
      unfold insertLower
      have : acc.any (fun p => p.1 = pyLower c) = false := by
        rw [List.any_eq_false]
        intro p hp
        simp only [decide_eq_true_eq]
        intro hfst
        exact hnotin (List.mem_map.mpr ⟨p, hp, hfst⟩)
      simp [this]
    rw [hstep]
    have hfresh' : ((acc ++ [(pyLower c, c)]).map Prod.fst ++ t.map pyLower).Nodup := by
      rw [List.map_append]
      rw [List.append_assoc]
      simpa using hfresh
    rw [ih (acc ++ [(pyLower c, c)]) hfresh']
    simp

/-- Header list exhibiting a lowercase collapse: "a traded qty" and
"A TRADED QTY" share a lowercasing, so the dict keeps one entry for them at
the position of the first, valued by the last. -/
def hdrsCollapse : List String :=
  ["Symbol", "a traded qty", "B Traded Qty", "A TRADED QTY", "Deliverable Qty"]

/-- Counterexample to C10 as stated: on `hdrsCollapse` the last header in
column order matching the traded rule is "A TRADED QTY", but the loop scans
`cols.items()` in first-occurrence order of the lowercased names, so it
resolves the traded column to "B Traded Qty" instead. -/
theorem resolveCols_not_last_in_column_order :
    (hdrsCollapse.filter (fun h => matchTradedRule (pyLower h))).getLast?
      = some "A TRADED QTY"
    ∧ (resolveCols hdrsCollapse).traded = some "B Traded Qty"
    ∧ ("B Traded Qty" : String) ≠ "A TRADED QTY" := by
  refine ⟨by decide, by decide, by decide⟩

theorem colsMap_nodup_lower (hdrs : List String)
    (hnd : (hdrs.map pyLower).Nodup) :
    colsMap hdrs = hdrs.map (fun c => (pyLower c, c)) := by
  have h := colsMap_of_fresh hdrs [] (by simpa using hnd)
  simpa [colsMap] using h

/-- C10 amended: the dict comprehension keeps at most one entry per
lowercased header name (its keys are nodup), and each of the three columns
resolves to the value of the LAST entry of `cols.items()` matching its rule —
first-occurrence order of lowercased names, each valued by the last original
header with that lowercasing.  When no two headers collapse under
lowercasing, this is exactly the last matching header in column order. -/
theorem resolveCols_last_match (hdrs : List String) :
    ((colsMap hdrs).map Prod.fst).Nodup
    ∧ (resolveCols hdrs).sym = lastMatchVal matchSymRule (colsMap hdrs)
    ∧ (resolveCols hdrs).traded = lastMatchVal matchTradedRule (colsMap hdrs)
    ∧ (resolveCols hdrs).deliver = lastMatchVal matchDeliverRule (colsMap hdrs)
    ∧ ((hdrs.map pyLower).Nodup →
        (resolveCols hdrs).traded
          = (hdrs.filter (fun h => matchTradedRule (pyLower h))).getLast?) := by
  refine ⟨nodup_keys_foldl hdrs [] (by simp), resolveCols_sym_eq hdrs,
    resolveCols_traded_eq hdrs, resolveCols_deliver_eq hdrs, ?_⟩
  intro hnd
  rw [resolveCols_traded_eq hdrs, colsMap_nodup_lower hdrs hnd]
  unfold lastMatchVal
  rw [List.filter_map, List.getLast?_map, Option.map_map]
  have hcomp : ((fun kv : String × String => matchTradedRule kv.1)
      ∘ fun c => (pyLower c, c)) = fun h => matchTradedRule (pyLower h) := rfl
  have hsnd : (Prod.snd ∘ fun c : String => (pyLower c, c)) = id := rfl
  rw [hcomp, hsnd, Option.map_id]
  rfl

/-- Closed instance of `resolveCols_last_match` on collapse-free headers:
with two traded-rule matches, the later column "Total Traded Quantity" is the
one resolved. -/
theorem resolveCols_last_match_witness :
    (resolveCols ["SYMBOL", "Traded Qty", "Total Traded Quantity", "Deliverable Qty"]).traded
      = (["SYMBOL", "Traded Qty", "Total Traded Quantity", "Deliverable Qty"].filter
          (fun h => matchTradedRule (pyLower h))).getLast? :=
  (resolveCols_last_match
    ["SYMBOL", "Traded Qty", "Total Traded Quantity", "Deliverable Qty"]).2.2.2.2 (by decide)

/-- The parsed CSV as `parse_deliverable_csv` consumes it
(`pd.read_csv(..., dtype=str, skip_blank_lines=True)`, line 83): a header
row and rows of string cells. -/
structure CsvTable where
  headers : List String
  rows : List (List String)
deriving Repr, DecidableEq

/-- One output row in the fixed column order
(Date, Symbol, TradedQty, DeliveryQty, DeliveryPct) of line 112. -/
structure DeliverableRecord where
  date : String
  symbol : String
  tradedQty : Int
  deliveryQty : Int
  deliveryPct : ℚ
deriving Repr, DecidableEq

/-- `parse_deliverable_csv` (lines 82-112).  The schema check of lines 95-96
fires first; when all three mandatory columns resolve, execution reaches
line 98, whose `str_strip` attribute access raises `AttributeError` — the
function never builds an output row.  `today` is the `datetime.utcnow()`
date substitute of line 111, which the crash keeps unreachable. -/
def parse_deliverable_csv (today : String) (t : CsvTable) :
    Except PipeError (List DeliverableRecord) :=
  let r := resolveCols t.headers
  if r.sym.isSome && r.traded.isSome && r.deliver.isSome then
    .error (.attributeError "Series object has no attribute str_strip")
  else
    .error (.schemaError t.headers)

/-- `filter_nifty50` (lines 114-116): uppercase the symbol column again, then
keep the rows whose symbol is in the reference set; `reset_index(drop=True)`
makes the surviving rows contiguously indexed from 0, which positional list
indexing renders implicit. -/
def filter_nifty50 (df : List DeliverableRecord) (niftySymbols : List String) :
    List DeliverableRecord :=
  (df.map (fun r => { r with symbol := pyUpper r.symbol })).filter
    (fun r => niftySymbols.contains r.symbol)

/-- The Normalizer+Filter composition exactly as `main` runs it
(lines 132-134). -/
def runPipeline (today : String) (t : CsvTable) (niftySymbols : List String) :
    Except PipeError (List DeliverableRecord) :=
  (parse_deliverable_csv today t).map (fun df => filter_nifty50 df niftySymbols)

/-- Observable outcome of `main` (lines 122-140) from the parse stage on:
the DataFrame `write_excel` was called with (`none` when the run aborted
before reaching it), whether the empty-result warning printed, and the
process exit code. -/
structure RunOutcome where
  wroteFile : Option (List DeliverableRecord)
  warned : Bool
  exitCode : Nat
deriving Repr, DecidableEq

/-- `main` from the parse stage on (lines 130-140): any exception is caught,
printed, and turns into `sys.exit(2)` with no file written; otherwise the
empty-result warning fires when applicable and `write_excel` runs. -/
def main_run (today : String) (t : CsvTable) (niftySymbols : List String) :
    RunOutcome :=
  match runPipeline today t niftySymbols with
  | .error _ => ⟨none, false, 2⟩
  | .ok dfn => ⟨some dfn, dfn.isEmpty, 0⟩

/-- The tail of `main` from line 134 on, given a normalized report: filter,
warn when the filtered frame is empty, always write. -/
def main_filter_and_write (df : List DeliverableRecord) (syms : List String) :
    RunOutcome :=
  let dfn := filter_nifty50 df syms
  ⟨some dfn, dfn.isEmpty, 0⟩

/-- C1 (code bug): on a deliverable CSV where all three resolution rules
match a column, `parse_deliverable_csv` does not return the normalized
report the claim describes — the `str_strip` attribute access on line 98
raises `AttributeError` before any row is built. -/
theorem parse_crashes_on_resolvable_csv :
    parse_deliverable_csv "2026-10-12"
      ⟨["SYMBOL", "TRADED QTY", "DELIVERABLE QTY"], [[" tcs ", "1,000", "400"]]⟩
      = .error (.attributeError "Series object has no attribute str_strip") := by
  decide

/-- C5: when any mandatory column fails to resolve, `parse_deliverable_csv`
fails with a `SchemaError` carrying the actual headers found, and `main`
aborts with exit code 2 before `write_excel` runs — no output file is
written. -/
theorem schema_error_aborts_run (today : String) (t : CsvTable)
    (syms : List String)
    (h : ((resolveCols t.headers).sym.isSome && (resolveCols t.headers).traded.isSome
          && (resolveCols t.headers).deliver.isSome) = false) :
    parse_deliverable_csv today t = .error (.schemaError t.headers)
    ∧ (main_run today t syms).wroteFile = none
    ∧ (main_run today t syms).exitCode = 2 := by
  have hp : parse_deliverable_csv today t = .error (.schemaError t.headers) := by
    unfold parse_deliverable_csv
    simp [h]
  refine ⟨hp, ?_, ?_⟩ <;> simp [main_run, runPipeline, hp, Except.map]

/-- Closed instance of `schema_error_aborts_run` on a CSV whose headers
resolve none of the three rules. -/
theorem schema_error_aborts_run_witness :
    parse_deliverable_csv "2026-10-12" ⟨["Foo", "Bar"], [["1", "2"]]⟩
        = .error (.schemaError ["Foo", "Bar"])
    ∧ (main_run "2026-10-12" ⟨["Foo", "Bar"], [["1", "2"]]⟩ ["TCS"]).wroteFile = none
    ∧ (main_run "2026-10-12" ⟨["Foo", "Bar"], [["1", "2"]]⟩ ["TCS"]).exitCode = 2 :=
  schema_error_aborts_run "2026-10-12" ⟨["Foo", "Bar"], [["1", "2"]]⟩ ["TCS"] (by decide)

/-- C6: on a normalized report (symbols already uppercase),
`filter_nifty50` returns exactly the rows whose symbol is a member of the
reference set, in their original relative order (and contiguously reindexed,
which list position renders implicit); and when zero rows match, the run
still succeeds — the warning fires, the exit code is 0, and the
empty-but-well-formed file is still written. -/
theorem filter_nifty50_spec (df : List DeliverableRecord) (syms : List String)
    (hupper : ∀ r ∈ df, pyUpper r.symbol = r.symbol) :
    filter_nifty50 df syms = df.filter (fun r => syms.contains r.symbol)
    ∧ ((filter_nifty50 df syms).isEmpty = true →
        (main_filter_and_write df syms).warned = true
        ∧ (main_filter_and_write df syms).wroteFile = some []
        ∧ (main_filter_and_write df syms).exitCode = 0) := by
  have hmap : df.map (fun r => { r with symbol := pyUpper r.symbol }) = df := by
    have hcongr : ∀ r ∈ df,
        ({ r with symbol := pyUpper r.symbol } : DeliverableRecord) = r := by
      intro r hr
      have hs := hupper r hr
      cases r
      simp only at hs
      simp [hs]
    calc df.map (fun r => { r with symbol := pyUpper r.symbol })
        = df.map id := List.map_congr_left hcongr
      _ = df := List.map_id df
  have hfe : filter_nifty50 df syms = df.filter (fun r => syms.contains r.symbol) := by
    unfold filter_nifty50
    rw [hmap]
  refine ⟨hfe, ?_⟩
  intro hempty
  have hnil : filter_nifty50 df syms = [] := by
    cases hfil : filter_nifty50 df syms with
    | nil => rfl
    | cons x xs => rw [hfil] at hempty; simp [List.isEmpty] at hempty
  unfold main_filter_and_write
  refine ⟨?_, ?_, rfl⟩
  · simp [hnil]
  · simp [hnil]

/-- Closed instance of `filter_nifty50_spec`: a report whose only symbol is
absent from the reference set filters to the empty list. -/
theorem filter_nifty50_spec_witness :
    filter_nifty50 [⟨"2024-01-01", "WIPRO", 500, 250, 50⟩] ["TCS", "INFY"]
      = [(⟨"2024-01-01", "WIPRO", 500, 250, 50⟩ : DeliverableRecord)].filter
          (fun r => ["TCS", "INFY"].contains r.symbol) :=
  (filter_nifty50_spec [⟨"2024-01-01", "WIPRO", 500, 250, 50⟩] ["TCS", "INFY"]
    (by decide)).1

/-- C9: the Normalizer+Filter pipeline is a pure function of the CSV text,
the reference set and the date substitution value: two runs given identical
inputs produce identical output, including identical failure outcomes. -/
theorem pipeline_deterministic (d1 d2 : String) (t1 t2 : CsvTable)
    (s1 s2 : List String) (hd : d1 = d2) (ht : t1 = t2) (hs : s1 = s2) :
    runPipeline d1 t1 s1 = runPipeline d2 t2 s2 := by
  rw [hd, ht, hs]

/-- Closed instance of `pipeline_deterministic` at a concrete CSV, reference
set and date. -/
theorem pipeline_deterministic_witness :
    runPipeline "2024-01-01"
        ⟨["SYMBOL", "TRADED QTY", "DELIVERABLE QTY"], [["TCS", "1000", "400"]]⟩ ["TCS"]
      = runPipeline "2024-01-01"
        ⟨["SYMBOL", "TRADED QTY", "DELIVERABLE QTY"], [["TCS", "1000", "400"]]⟩ ["TCS"] :=
  pipeline_deterministic "2024-01-01" "2024-01-01"
    ⟨["SYMBOL", "TRADED QTY", "DELIVERABLE QTY"], [["TCS", "1000", "400"]]⟩
    ⟨["SYMBOL", "TRADED QTY", "DELIVERABLE QTY"], [["TCS", "1000", "400"]]⟩
    ["TCS"] ["TCS"] rfl rfl rfl
